import Mathlib

/-!
Verification of the scanflow document-detection core: a shallow embedding of
the worker protocol (`public/opencv-worker.js`), the detection hooks
(`src/hooks/useFileUpload.ts` live/one-shot callers,
`src/hooks/useDocumentDetection.ts`), and the geometric pipeline
(candidate filtering, scoring, corner canonicalization, perspective
rectification), together with theorems settling the spec's claims about them.

Numeric code (scoring, edge lengths, angles) is embedded over `ℝ`; the
downscaler, which uses only division and rounding, over `ℚ`; the message
protocol over plain inductive types.
-/

open Classical

/-! ## Worker protocol: message types and the background host

The background execution host is the web worker in `public/opencv-worker.js`.
Its `onmessage` handler is a pure function of the incoming message, the
`cvReady` flag, and the outcome of the image-processing pipeline (which we
abstract as a parameter, since its result depends on pixel content).
-/

/-- The `type` tag of a message posted to the worker.  The hooks post
`detect` (one-shot), `detect-live` (live scheduler) and `crop-with-corners`
(manual crop) messages. -/
inductive MsgType
  | detect
  | detectLive
  | cropWithCorners
  deriving DecidableEq

/-- A request message as received by the worker's `onmessage`: the type tag,
the length of the transferred pixel buffer, and the announced frame
dimensions.  (Pixel contents only matter to the abstracted pipeline.) -/
structure HostMsg where
  type : MsgType
  pixLen : Nat
  width : Nat
  height : Nat
  deriving DecidableEq

/-- Outcome of `detectAndCrop(pixels, width, height)` inside the worker:
either a corrected raster of some size, or `null` (no quad found / output too
small), or a thrown exception (caught by the handler's `try/catch`). -/
inductive PipelineOutcome
  | found (w h : Nat) (debug : String)
  | noDoc
  | raises (msg : String)
  deriving DecidableEq

/-- A message posted by the worker back to the page.  The source worker only
ever posts `ready`, `error` and `result`; `liveResult` is the `live-result`
message shape that the live branch of `useFileUpload.ts` listens for. -/
inductive WorkerMsg
  | ready
  | error (message : String)
  | result (detected : Bool) (debug : String)
  | liveResult (detected : Bool) (quad : Option (Nat × Nat))
  deriving DecidableEq

/-- Embedding of the worker's `onmessage` handler
(`public/opencv-worker.js`, lines 43-79).  Returns the message posted back,
or `none` when the handler returns without posting anything.  The handler:
ignores every message whose type is not `'detect'`; replies `cv not ready`
when the runtime is not loaded; rejects empty and mismatched pixel buffers;
otherwise runs the pipeline, converting a thrown exception into an explicit
failure result via its `try/catch`. -/
def workerOnMessage (cvReady : Bool) (msg : HostMsg) (pipe : PipelineOutcome) :
    Option WorkerMsg :=
  if msg.type ≠ MsgType.detect then none
  else if cvReady = false then some (.result false "cv not ready")
  else if msg.pixLen = 0 then some (.result false "no pixel data received")
  else if msg.pixLen ≠ msg.width * msg.height * 4 then
    some (.result false "pixel length mismatch")
  else
    match pipe with
    | .found _ _ debug => some (.result true debug)
    | .noDoc => some (.result false "no quad found")
    | .raises m => some (.result false ("error: " ++ m))

/-- One worker step with its state made explicit: the handler's only session
state is the `cvReady` flag (the `cv` handle is folded into it), and
`onmessage` never writes it, so the state component is returned unchanged. -/
def workerStep (cvReady : Bool) (msg : HostMsg) (pipe : PipelineOutcome) :
    Bool × Option WorkerMsg :=
  (cvReady, workerOnMessage cvReady msg pipe)

/-! ## Caller side: one-shot requests (`useFileUpload.ts`) -/

/-- What a one-shot caller does synchronously before any worker round trip:
either resolve its promise immediately (no message dispatched), or post a
request to the worker. -/
inductive StartAction
  | resolveNow (debug : String)
  | dispatch (msg : HostMsg)
  deriving DecidableEq

/-- Embedding of the synchronous prefix of `detectAndCrop` in
`useFileUpload.ts` (lines 318-357): resolve at once when the worker is not
ready or the video has zero dimensions; otherwise capture the frame (a pixel
buffer of length `w*h*4`, per `getImageData`) and post a `detect` message. -/
def detectAndCropStart (workerReady : Bool) (w h : Nat) : StartAction :=
  if workerReady = false then .resolveNow "worker not ready"
  else if w = 0 ∨ h = 0 then .resolveNow "video has no dimensions"
  else .dispatch ⟨MsgType.detect, w * h * 4, w, h⟩

/-- Embedding of the synchronous prefix of `cropCanvasWithCorners`
(`useFileUpload.ts`, lines 362-392): only the worker-ready guard exists;
the canvas pixels (length `w*h*4`) are posted as a `crop-with-corners`
message. -/
def cropWithCornersStart (workerReady : Bool) (w h : Nat) : StartAction :=
  if workerReady = false then .resolveNow "worker not ready"
  else .dispatch ⟨MsgType.cropWithCorners, w * h * 4, w, h⟩

/-- The spec's `InvalidFrame` condition on a request: zero dimensions, or a
pixel buffer whose length is not `width * height * 4`. -/
def invalidFrame (w h pixLen : Nat) : Prop :=
  w = 0 ∨ h = 0 ∨ pixLen ≠ w * h * 4

/-! ## Caller side: the pending promise and the 5-second safety timeout

`detectAndCrop` / `cropCanvasWithCorners` register their `resolve` callback
in the single `pendingRef` slot, and arm a 5s `setTimeout` that resolves with
a failure if `pendingRef` still holds this call's resolver.  We model the
lifecycle of one call: `pending` is true while `pendingRef.current ===
resolve`, and `resolved` records the value the promise settled on. -/

/-- The value a one-shot call's promise settles on. -/
inductive CallOutcome
  | fromReply (detected : Bool)
  | earlyFailure (debug : String)
  | timedOut
  deriving DecidableEq

/-- Lifecycle state of a single one-shot call. -/
structure CallState where
  pending : Bool
  resolved : Option CallOutcome
  deriving DecidableEq

/-- Events that can reach a call: the worker's `result` reply, the firing of
the 5-second safety timer (which always fires, 5s after dispatch), or the
session teardown — the camera-session effect cleanup that terminates the
worker and clears `pendingRef` (`useFileUpload.ts`, lines 237-249). -/
inductive CallEvent
  | hostReply (detected : Bool)
  | timeoutFires
  | sessionTeardown
  deriving DecidableEq

/-- Initial call state of `detectAndCrop`: early resolution (worker not
ready / zero dimensions) leaves nothing pending; otherwise the resolver is
stored in `pendingRef` and the call is pending. -/
def detectCallInit (workerReady : Bool) (w h : Nat) : CallState :=
  if workerReady = false then ⟨false, some (.earlyFailure "worker not ready")⟩
  else if w = 0 ∨ h = 0 then
    ⟨false, some (.earlyFailure "video has no dimensions")⟩
  else ⟨true, none⟩

/-- Initial call state of `cropCanvasWithCorners` (no dimension guard). -/
def cropCallInit (workerReady : Bool) : CallState :=
  if workerReady = false then ⟨false, some (.earlyFailure "worker not ready")⟩
  else ⟨true, none⟩

/-- One event hitting the call.  Both the `result` branch of
`worker.onmessage` and the timeout callback first check that `pendingRef`
still holds this call's resolver, clear it, and resolve; when the slot was
already cleared they do nothing (`useFileUpload.ts`, lines 204-230 and
348-353).  The session teardown (`useFileUpload.ts`, line 241) sets
`pendingRef.current = null` WITHOUT resolving: the call stops being pending
but its promise keeps whatever settlement it already had — none, if it was
still pending. -/
def callStep (s : CallState) (ev : CallEvent) : CallState :=
  match ev with
  | .hostReply d => if s.pending then ⟨false, some (.fromReply d)⟩ else s
  | .timeoutFires => if s.pending then ⟨false, some .timedOut⟩ else s
  | .sessionTeardown => ⟨false, s.resolved⟩

/-! ## Live detection scheduler (`useFileUpload.ts`, lines 256-304) -/

/-- The live-detection state owned by the hook: the `liveBusyRef` flag and
the published quad (`liveQuad`).  The quad payload is abstracted. -/
structure LiveUi where
  busy : Bool
  quad : Option (Nat × Nat)
  deriving DecidableEq

/-- Embedding of the hook's `worker.onmessage` as far as live state goes
(`useFileUpload.ts`, lines 190-231): only a `live-result` message touches
`liveBusyRef` (clearing it) and `liveQuad` (published quad when
`detected && quad`, else `None`); every other message leaves both alone. -/
def liveOnMessage (s : LiveUi) (m : WorkerMsg) : LiveUi :=
  match m with
  | .liveResult detected q => ⟨false, if detected then q else none⟩
  | _ => s

/-- A live-scheduler tick that passes all three gates (worker ready, valid
dimensions, not busy) dispatches a `detect-live` message and sets the busy
flag (`useFileUpload.ts`, lines 266-299).  `sw`/`sh` are the downscaled
frame dimensions. -/
def liveTickDispatch (s : LiveUi) (sw sh : Nat) : LiveUi × HostMsg :=
  ({ s with busy := true }, ⟨MsgType.detectLive, sw * sh * 4, sw, sh⟩)

/-! ## Frame downscaler variants

Three variants exist in the repository:
- the 640px worker (`public/opencv-worker.js`, `findDocumentCorners`,
  lines 106-110): `scale = min(1, 640 / max(width, height))`;
- the 320px worker (`findDocumentCorners` in the earlier worker revision,
  `src/unnamed/part_001`, lines 126-129): `scale = min(1, 320 / width)`;
- the live scheduler (`useFileUpload.ts`, lines 283-285):
  `scale = min(1, 480 / videoWidth)`.
Each produces a raster of `Math.round(dim * scale)` per dimension.
`Math.round` rounds half toward `+∞`, exactly Mathlib's `round`. -/

/-- Working scale of the 640px worker variant: `min(1, 640 / max(w, h))`. -/
def scale640 (w h : Nat) : ℚ := min 1 (640 / max (w : ℚ) (h : ℚ))

/-- Downscaled dimensions of the 640px worker variant. -/
def dims640 (w h : Nat) : ℤ × ℤ :=
  (round ((w : ℚ) * scale640 w h), round ((h : ℚ) * scale640 w h))

/-- Working scale of the 320px worker variant: `min(1, 320 / w)` —
note: divides by the width, not the longer edge. -/
def scale320 (w : Nat) : ℚ := min 1 (320 / (w : ℚ))

/-- Downscaled dimensions of the 320px worker variant. -/
def dims320 (w h : Nat) : ℤ × ℤ :=
  (round ((w : ℚ) * scale320 w), round ((h : ℚ) * scale320 w))

/-- Working scale of the live scheduler: `min(1, 480 / videoWidth)` —
note: divides by the width, not the longer edge. -/
def scaleLive480 (w : Nat) : ℚ := min 1 (480 / (w : ℚ))

/-- Downscaled dimensions used by the live scheduler. -/
def dimsLive480 (w h : Nat) : ℤ × ℤ :=
  (round ((w : ℚ) * scaleLive480 w), round ((h : ℚ) * scaleLive480 w))

/-- The scale the spec prescribes for every variant:
`min(1, maxDim / longEdge)` with `longEdge = max(w, h)`.  Stated from the
spec's words, to be compared with the per-variant scales above. -/
def specScale (maxDim w h : Nat) : ℚ :=
  min 1 ((maxDim : ℚ) / max (w : ℚ) (h : ℚ))

/-! ## Geometry: points, quads, corner sets -/

/-- A 2D point with real coordinates (JS numbers are modelled as reals). -/
structure Pt where
  x : ℝ
  y : ℝ

/-- A quadrilateral candidate: the four vertices of a 4-point polygon
approximation, in contour order. -/
structure Quad where
  p0 : Pt
  p1 : Pt
  p2 : Pt
  p3 : Pt

/-- Cyclic vertex access, `pts[i % 4]` in the source loops. -/
def Quad.vert (q : Quad) : Fin 4 → Pt
  | 0 => q.p0
  | 1 => q.p1
  | 2 => q.p2
  | 3 => q.p3

/-- The vertex list of a candidate (always exactly four points). -/
def Quad.toList (q : Quad) : List Pt := [q.p0, q.p1, q.p2, q.p3]

/-- The canonical corner record `{topLeft, topRight, bottomRight,
bottomLeft}`. -/
structure CornerSet where
  topLeft : Pt
  topRight : Pt
  bottomRight : Pt
  bottomLeft : Pt

/-- Euclidean distance between two points written exactly as the source
computes it (`Math.sqrt(dx*dx + dy*dy)` / `Math.hypot(dx, dy)`). -/
noncomputable def edgeLen (p q : Pt) : ℝ :=
  Real.sqrt ((p.x - q.x) * (p.x - q.x) + (p.y - q.y) * (p.y - q.y))

/-- Sum key `x + y` used by the canonicalizer. -/
def sumKey (p : Pt) : ℝ := p.x + p.y

/-- Difference key `x - y` used by the canonicalizer. -/
def diffKey (p : Pt) : ℝ := p.x - p.y

/-! ## Corner canonicalizer (`orderCorners`)

The source sorts a copy of the 4-point array with JS `Array.prototype.sort`,
which is stable, and reads off elements `[0]` and `[3]`.  A stable ascending
sort is uniquely determined by its key, so any stable sort embeds it; we use
a stable insertion sort (`insertBy` keeps an element before later elements
with an equal key, matching JS stability). -/

/-- Stable insertion of a point into a key-sorted list: `p` goes before the
first element whose key is `≥ key p`, so elements with equal keys keep their
original relative order. -/
noncomputable def insertBy (key : Pt → ℝ) (p : Pt) : List Pt → List Pt
  | [] => [p]
  | q :: qs => if key p ≤ key q then p :: q :: qs else q :: insertBy key p qs

/-- Stable insertion sort by a real-valued key (ascending). -/
noncomputable def sortBy (key : Pt → ℝ) : List Pt → List Pt
  | [] => []
  | p :: ps => insertBy key p (sortBy key ps)

/-- Embedding of `orderCorners` (`public/opencv-worker.js`, lines 401-413):
sort by `x+y` — smallest is `topLeft`, largest is `bottomRight`; sort by
`x-y` — largest is `topRight`, smallest is `bottomLeft`. -/
noncomputable def orderCorners (points : List Pt) : CornerSet :=
  let bySum := sortBy sumKey points
  let byDiff := sortBy diffKey points
  ⟨bySum.getD 0 ⟨0, 0⟩, byDiff.getD 3 ⟨0, 0⟩, bySum.getD 3 ⟨0, 0⟩,
    byDiff.getD 0 ⟨0, 0⟩⟩

/-- The spec's description of a canonical labeling: `topLeft` minimizes
`x+y`, `bottomRight` maximizes `x+y`, `bottomLeft` minimizes `x-y`,
`topRight` maximizes `x-y` over the four corners.  Stated from the spec's
words, to be compared with the canonicalizer. -/
def isCanonicalSpec (c : CornerSet) : Prop :=
  (sumKey c.topLeft ≤ sumKey c.topRight ∧ sumKey c.topLeft ≤ sumKey c.bottomRight ∧
    sumKey c.topLeft ≤ sumKey c.bottomLeft) ∧
  (sumKey c.topRight ≤ sumKey c.bottomRight ∧ sumKey c.topLeft ≤ sumKey c.bottomRight ∧
    sumKey c.bottomLeft ≤ sumKey c.bottomRight) ∧
  (diffKey c.bottomLeft ≤ diffKey c.topLeft ∧ diffKey c.bottomLeft ≤ diffKey c.topRight ∧
    diffKey c.bottomLeft ≤ diffKey c.bottomRight) ∧
  (diffKey c.topLeft ≤ diffKey c.topRight ∧ diffKey c.bottomRight ≤ diffKey c.topRight ∧
    diffKey c.bottomLeft ≤ diffKey c.topRight)

/-! ## Perspective rectifier (`perspectiveCorrect`)

The worker's `perspectiveCorrect` (`public/opencv-worker.js`, lines 364-399)
computes the four edge lengths of the corner set, rounds the larger width and
height, fails (`return null`) when either is below 50, and otherwise warps
the source raster.  We model the size computation and the failure condition;
the warp itself only copies pixels into the computed output size. -/

/-- Rectified output width per the spec and both rectifier implementations:
`round(max(widthTop, widthBottom))`. -/
noncomputable def rectifiedWidth (c : CornerSet) : ℤ :=
  round (max (edgeLen c.topRight c.topLeft) (edgeLen c.bottomRight c.bottomLeft))

/-- Rectified output height: `round(max(heightLeft, heightRight))`. -/
noncomputable def rectifiedHeight (c : CornerSet) : ℤ :=
  round (max (edgeLen c.bottomLeft c.topLeft) (edgeLen c.bottomRight c.topRight))

/-- Embedding of the worker's `perspectiveCorrect`: the output dimensions, or
`none` (the "too small" failure) when either rounded dimension is below 50. -/
noncomputable def perspectiveCorrect (c : CornerSet) : Option (ℤ × ℤ) :=
  let widthTop := edgeLen c.topRight c.topLeft
  let widthBottom := edgeLen c.bottomRight c.bottomLeft
  let heightLeft := edgeLen c.bottomLeft c.topLeft
  let heightRight := edgeLen c.bottomRight c.topRight
  let outW : ℤ := round (max widthTop widthBottom)
  let outH : ℤ := round (max heightLeft heightRight)
  if outW < 50 ∨ outH < 50 then none else some (outW, outH)

/-! ## Angle filter (`hasReasonableAngles`) and convexity

`hasReasonableAngles` (`public/opencv-worker.js`, lines 334-358 and the
identical copy in `src/unnamed/part_001`, lines 630-654) loops over the four
vertices; at vertex `i+1` it takes the vectors to `pts[i]` and `pts[i+2]`,
rejects when either magnitude is `< 1`, and otherwise rejects when the
arccos angle (in degrees, cosine clamped to `[-1, 1]`) leaves `[45, 135]`.
The imperative early-return loop is a conjunction over the four
iterations. -/

/-- The interior angle at vertex `i+1` of the quad, in degrees, exactly as
the source computes it: `acos(clamp(dot / (mag1 * mag2))) * 180 / π`. -/
noncomputable def interiorAngle (q : Quad) (i : Fin 4) : ℝ :=
  let p1 := q.vert i
  let p2 := q.vert (i + 1)
  let p3 := q.vert (i + 2)
  let dotv := (p1.x - p2.x) * (p3.x - p2.x) + (p1.y - p2.y) * (p3.y - p2.y)
  let m := edgeLen p1 p2 * edgeLen p3 p2
  Real.arccos (max (-1) (min 1 (dotv / m))) * (180 / Real.pi)

/-- Embedding of `hasReasonableAngles`: every iteration must pass the two
magnitude checks (`mag ≥ 1`) and the angle-range check. -/
noncomputable def hasReasonableAngles (q : Quad) : Prop :=
  ∀ i : Fin 4,
    1 ≤ edgeLen (q.vert i) (q.vert (i + 1)) ∧
    1 ≤ edgeLen (q.vert (i + 2)) (q.vert (i + 1)) ∧
    45 ≤ interiorAngle q i ∧ interiorAngle q i ≤ 135

/-- Cross product of consecutive edges at position `i`:
`(v[i+1]-v[i]) × (v[i+2]-v[i+1])`. -/
def crossAt (q : Quad) (i : Fin 4) : ℝ :=
  let a := q.vert i
  let b := q.vert (i + 1)
  let c := q.vert (i + 2)
  (b.x - a.x) * (c.y - b.y) - (b.y - a.y) * (c.x - b.x)

/-- Embedding of `cv.isContourConvex` on a 4-point contour: the cross
products of consecutive edges never take both strict signs. -/
def isContourConvex (q : Quad) : Prop :=
  (∀ i : Fin 4, 0 ≤ crossAt q i) ∨ (∀ i : Fin 4, crossAt q i ≤ 0)

/-- Embedding of `cv.contourArea` on a 4-point contour: the absolute
shoelace area. -/
noncomputable def contourArea (q : Quad) : ℝ :=
  |q.p0.x * q.p1.y - q.p1.x * q.p0.y + (q.p1.x * q.p2.y - q.p2.x * q.p1.y) +
      (q.p2.x * q.p3.y - q.p3.x * q.p2.y) +
      (q.p3.x * q.p0.y - q.p0.x * q.p3.y)| / 2

/-- Acceptance filter of the collect-all candidate generator
(`collectQuads`, `src/unnamed/part_001`, lines 494-555) and of the fail-fast
`findBestQuad` (`public/opencv-worker.js`, lines 282-303): a 4-vertex
approximation is kept only when `cv.isContourConvex` and
`hasReasonableAngles` both hold.  (The earlier area/top-15 preselection
chooses which contours are approximated; it imposes nothing on the accepted
shape.) -/
noncomputable def collectQuadsAccepts (q : Quad) : Prop :=
  isContourConvex q ∧ hasReasonableAngles q

/-- Acceptance test of the 320px single-strategy variant (`detectDocument`
contour loop, `src/hooks/useDocumentDetection.ts`, lines 99-115): a 4-vertex
approximation of a contour with `area ≥ minArea` and `area > bestArea` is
taken as the new best candidate — with no convexity and no angle check. -/
def accepted320 (_q : Quad) (area minArea bestArea : ℝ) : Prop :=
  minArea ≤ area ∧ bestArea < area

/-! ## Candidate scorer (`scoreCandidate`, `src/unnamed/part_001`,
lines 565-625) -/

/-- Center-proximity term (0-40): distance of the quad centroid from the
image center, normalized by the half-diagonal. -/
noncomputable def centerScore (q : Quad) (imgCx imgCy : ℝ) : ℝ :=
  let cx := (q.p0.x + q.p1.x + q.p2.x + q.p3.x) / 4
  let cy := (q.p0.y + q.p1.y + q.p2.y + q.p3.y) / 4
  let halfDiag := Real.sqrt (imgCx * imgCx + imgCy * imgCy)
  let dist := Real.sqrt ((cx - imgCx) * (cx - imgCx) + (cy - imgCy) * (cy - imgCy))
  max 0 (1 - dist / halfDiag) * 40

/-- Size-sweet-spot term (0-35): peak at 35% of the image area, linear
falloff inside [10%, 70%], a small capped score above 70% and below 10%. -/
noncomputable def sizeScore (area imgArea : ℝ) : ℝ :=
  let r := area / imgArea
  if 0.10 ≤ r ∧ r ≤ 0.70 then (1 - |r - 0.35| / 0.35) * 35
  else if 0.70 < r then max 0 (1 - (r - 0.70) / 0.30) * 10
  else r / 0.10 * 15

/-- Paper-aspect term (0-25): distance of the ordered quad's aspect ratio to
the nearest paper target (A4 1.414, Letter 1.294, square 1.0), over a 0.8
band; 0 when either ordered dimension is degenerate. -/
noncomputable def aspectScore (q : Quad) : ℝ :=
  let ordered := orderCorners q.toList
  let w := max (edgeLen ordered.topRight ordered.topLeft)
    (edgeLen ordered.bottomRight ordered.bottomLeft)
  let h := max (edgeLen ordered.bottomLeft ordered.topLeft)
    (edgeLen ordered.bottomRight ordered.topRight)
  if 0 < w ∧ 0 < h then
    let aspect := max w h / min w h
    let d1 := |aspect - 1.414|
    let d2 := |aspect - 1.294|
    let d3 := |aspect - 1.0|
    let bestAspectDist := min (min (min 999 d1) d2) d3
    max 0 (1 - bestAspectDist / 0.8) * 25
  else 0

/-- Embedding of `scoreCandidate`: the sum of the three terms accumulated by
the source's `score +=` statements. -/
noncomputable def scoreCandidate (q : Quad) (area imgCx imgCy imgArea : ℝ) : ℝ :=
  centerScore q imgCx imgCy + sizeScore area imgArea + aspectScore q

/-! ## Concrete quads used by witnesses and counterexamples -/

/-- An axis-aligned 10x10 square candidate. -/
def sq10 : Quad := ⟨⟨0, 0⟩, ⟨10, 0⟩, ⟨10, 10⟩, ⟨0, 10⟩⟩

/-- A non-convex ("dart") 4-vertex polygon. -/
def dart : Quad := ⟨⟨0, 0⟩, ⟨4, 0⟩, ⟨1, 1⟩, ⟨0, 4⟩⟩

/-! ## Helper lemmas: one-shot call lifecycle -/

/-- A settled promise stays settled across any further event (the
`pendingRef` guard prevents re-resolution, and the teardown only clears the
pending slot). -/
theorem callStep_resolved_isSome {s : CallState} (h : s.resolved.isSome)
    (ev : CallEvent) : ((callStep s ev).resolved).isSome := by
  cases ev with
  | hostReply d =>
    by_cases hp : s.pending
    · simp [callStep, hp]
    · simpa [callStep, hp] using h
  | timeoutFires =>
    by_cases hp : s.pending
    · simp [callStep, hp]
    · simpa [callStep, hp] using h
  | sessionTeardown => simpa [callStep] using h

/-- Settledness is preserved by any whole event sequence. -/
theorem foldl_preserves_resolved :
    ∀ (evs : List CallEvent) (s : CallState), s.resolved.isSome →
      ((evs.foldl callStep s).resolved).isSome := by
  intro evs
  induction evs with
  | nil => intro s h; exact h
  | cons e rest ih => intro s h; exact ih _ (callStep_resolved_isSome h e)

/-- Any call that starts pending or already settled is settled after any
teardown-free event sequence containing the (unconditionally armed) 5s
timeout firing.  The teardown exclusion is essential: tearing the session
down while the call is pending clears the slot without resolving, and the
timer's `pendingRef` guard then keeps it unresolved forever. -/
theorem resolves_after_timeout :
    ∀ (evs : List CallEvent) (s : CallState),
      (s.pending = true ∨ s.resolved.isSome) →
      CallEvent.timeoutFires ∈ evs →
      CallEvent.sessionTeardown ∉ evs →
      ((evs.foldl callStep s).resolved).isSome := by
  intro evs
  induction evs with
  | nil => intro s _ hmem _; cases hmem
  | cons e rest ih =>
    intro s hinv hmem hnd
    rw [List.mem_cons] at hnd
    push_neg at hnd
    rcases List.mem_cons.mp hmem with he | hrest
    · subst he
      rw [List.foldl_cons]
      apply foldl_preserves_resolved
      by_cases hp : s.pending
      · simp [callStep, hp]
      · rcases hinv with hp2 | hr
        · exact absurd hp2 hp
        · simpa [callStep, hp] using hr
    · rw [List.foldl_cons]
      refine ih _ ?_ hrest hnd.2
      cases e with
      | hostReply d =>
        by_cases hp : s.pending
        · simp [callStep, hp]
        · simpa [callStep, hp] using hinv
      | timeoutFires =>
        by_cases hp : s.pending
        · simp [callStep, hp]
        · simpa [callStep, hp] using hinv
      | sessionTeardown => exact absurd rfl hnd.1

/-! ## Claim theorems: worker protocol -/

/-- C2 (counterexample): a one-shot call pending at session teardown never
resolves.  The effect cleanup clears `pendingRef` without resolving, so when
the 5-second timer later fires its `pendingRef.current === resolve` guard
fails and the promise stays unsettled forever — a leaked pending caller,
for both `detectAndCrop` and `cropCanvasWithCorners`, even though the
safety timer did fire. -/
theorem teardown_leaks_pending_call :
    CallEvent.timeoutFires ∈
      [CallEvent.sessionTeardown, CallEvent.timeoutFires] ∧
    ([CallEvent.sessionTeardown, CallEvent.timeoutFires].foldl callStep
      (detectCallInit true 2 2)).resolved = none ∧
    ([CallEvent.sessionTeardown, CallEvent.timeoutFires].foldl callStep
      (cropCallInit true)).resolved = none := by
  refine ⟨by decide, rfl, rfl⟩

/-- C2 (amended): every one-shot `detect` or `crop-with-corners` call
resolves — on the host's reply if one arrived, otherwise on the 5-second
timeout failure — in any event sequence that includes the firing of the
safety timer, provided the session is not torn down during the call; a
teardown while the call is pending instead discards the promise unresolved
(per the counterexample). -/
theorem oneshot_calls_always_resolve (ready : Bool) (w h : Nat)
    (evs : List CallEvent) (hto : CallEvent.timeoutFires ∈ evs)
    (hnd : CallEvent.sessionTeardown ∉ evs) :
    ((evs.foldl callStep (detectCallInit ready w h)).resolved).isSome ∧
    ((evs.foldl callStep (cropCallInit ready)).resolved).isSome := by
  constructor <;> refine resolves_after_timeout _ _ ?_ hto hnd
  · unfold detectCallInit
    split_ifs <;> simp
  · unfold cropCallInit
    split_ifs <;> simp

/-- Witness for the amended C2: a concrete call against a silent host, with
the timeout as the only event, resolves. -/
theorem oneshot_calls_always_resolve_witness :
    (CallEvent.timeoutFires ∈ [CallEvent.timeoutFires]) ∧
    (CallEvent.sessionTeardown ∉ [CallEvent.timeoutFires]) ∧
    ((([CallEvent.timeoutFires].foldl callStep (detectCallInit true 2 2)).resolved).isSome ∧
      (([CallEvent.timeoutFires].foldl callStep (cropCallInit true)).resolved).isSome) :=
  ⟨by decide, by decide, oneshot_calls_always_resolve true 2 2 _ (by decide) (by decide)⟩

/-- C9: for any `detect` request — including every failing one (missing
pixel data, pixel-length mismatch, no document found, or an exception turned
into a failure by the handler's `try/catch`) — the worker posts back an
explicit `result` message, leaves its readiness state untouched, and handles
any subsequent request exactly as it would have before. -/
theorem host_survives_failed_requests (cvReady : Bool) (msg : HostMsg)
    (pipe : PipelineOutcome) (h : msg.type = MsgType.detect) :
    (workerStep cvReady msg pipe).1 = cvReady ∧
    (∃ d dbg, (workerStep cvReady msg pipe).2 = some (WorkerMsg.result d dbg)) ∧
    (∀ msg2 pipe2,
      workerStep (workerStep cvReady msg pipe).1 msg2 pipe2 =
        workerStep cvReady msg2 pipe2) := by
  refine ⟨rfl, ?_, fun _ _ => rfl⟩
  unfold workerStep workerOnMessage
  rw [if_neg (by simp [h])]
  split_ifs with h1 h2 h3
  · exact ⟨false, "cv not ready", rfl⟩
  · exact ⟨false, "no pixel data received", rfl⟩
  · exact ⟨false, "pixel length mismatch", rfl⟩
  · cases pipe with
    | found w2 h2 dbg => exact ⟨true, dbg, rfl⟩
    | noDoc => exact ⟨false, "no quad found", rfl⟩
    | raises m => exact ⟨false, "error: " ++ m, rfl⟩

/-- Witness for C9: a concrete failed request (empty pixel buffer) on a
ready host. -/
theorem host_survives_failed_requests_witness :
    (workerStep true ⟨MsgType.detect, 0, 4, 4⟩ PipelineOutcome.noDoc).1 = true ∧
    (∃ d dbg, (workerStep true ⟨MsgType.detect, 0, 4, 4⟩ PipelineOutcome.noDoc).2 =
      some (WorkerMsg.result d dbg)) ∧
    (∀ msg2 pipe2,
      workerStep (workerStep true ⟨MsgType.detect, 0, 4, 4⟩ PipelineOutcome.noDoc).1
          msg2 pipe2 =
        workerStep true msg2 pipe2) :=
  host_survives_failed_requests true ⟨MsgType.detect, 0, 4, 4⟩ PipelineOutcome.noDoc rfl

/-- C1 (divergence witness): the worker's `onmessage` returns without
posting anything for every `detect-live` message — its first guard drops any
message whose type is not `'detect'` — while the scheduler's busy flag is
cleared (and a quad published) only by a `live-result` message, which this
host therefore never sends: after a live dispatch the busy flag can never be
cleared by the host. -/
theorem detect_live_gets_no_reply (cvReady : Bool) (pixLen w h : Nat)
    (pipe : PipelineOutcome) (s : LiveUi) (m : WorkerMsg) :
    workerOnMessage cvReady ⟨MsgType.detectLive, pixLen, w, h⟩ pipe = none ∧
    ((liveOnMessage s m).busy = s.busy ∨ ∃ d q, m = WorkerMsg.liveResult d q) := by
  constructor
  · rfl
  · cases m with
    | liveResult d q => exact Or.inr ⟨d, q, rfl⟩
    | ready => exact Or.inl rfl
    | error msg2 => exact Or.inl rfl
    | result d dbg => exact Or.inl rfl

/-- C8 (counterexample): a request with positive dimensions but a mismatched
pixel-buffer length is an `InvalidFrame`, yet the caller's only pre-dispatch
guard (zero dimensions) lets it through — `detectAndCrop` dispatches — and
the mismatch is detected and reported by the background host itself, as a
`result` reply, not on the caller side. -/
theorem invalid_frame_checked_host_side :
    invalidFrame 2 2 15 ∧
    detectAndCropStart true 2 2 = StartAction.dispatch ⟨MsgType.detect, 16, 2, 2⟩ ∧
    workerOnMessage true ⟨MsgType.detect, 15, 2, 2⟩ PipelineOutcome.noDoc =
      some (WorkerMsg.result false "pixel length mismatch") := by
  refine ⟨Or.inr (Or.inr (by decide)), by decide, by decide⟩

/-- C8 (amended): a frame with zero width or height is rejected immediately
on the caller side, with no message dispatched to the host; a request with a
mismatched (or empty) pixel buffer is instead answered by the host itself
with an explicit failure `result`, without the detection pipeline being
consulted (the reply does not depend on the pipeline outcome). -/
theorem invalid_frame_handling (w h pixLen : Nat) (pipe pipe2 : PipelineOutcome)
    (hinv : invalidFrame w h pixLen) :
    (detectAndCropStart true w h = StartAction.resolveNow "video has no dimensions" ∧
      (w = 0 ∨ h = 0)) ∨
    ((∃ dbg, workerOnMessage true ⟨MsgType.detect, pixLen, w, h⟩ pipe =
        some (WorkerMsg.result false dbg)) ∧
      workerOnMessage true ⟨MsgType.detect, pixLen, w, h⟩ pipe =
        workerOnMessage true ⟨MsgType.detect, pixLen, w, h⟩ pipe2) := by
  by_cases hw : w = 0 ∨ h = 0
  · left
    refine ⟨?_, hw⟩
    simp [detectAndCropStart, hw]
  · right
    have hne : pixLen ≠ w * h * 4 := by
      rcases hinv with h0 | h0 | h0
      · exact absurd (Or.inl h0) hw
      · exact absurd (Or.inr h0) hw
      · exact h0
    by_cases hz : pixLen = 0
    · exact ⟨⟨"no pixel data received", by simp [workerOnMessage, hz]⟩,
        by simp [workerOnMessage, hz]⟩
    · exact ⟨⟨"pixel length mismatch", by simp [workerOnMessage, hz, hne]⟩,
        by simp [workerOnMessage, hz, hne]⟩

/-- Witness for the amended C8: a concrete zero-width frame is rejected on
the caller side. -/
theorem invalid_frame_handling_witness :
    invalidFrame 0 5 0 ∧
    ((detectAndCropStart true 0 5 = StartAction.resolveNow "video has no dimensions" ∧
        (0 = 0 ∨ 5 = 0)) ∨
      ((∃ dbg, workerOnMessage true ⟨MsgType.detect, 0, 0, 5⟩ PipelineOutcome.noDoc =
          some (WorkerMsg.result false dbg)) ∧
        workerOnMessage true ⟨MsgType.detect, 0, 0, 5⟩ PipelineOutcome.noDoc =
          workerOnMessage true ⟨MsgType.detect, 0, 0, 5⟩ PipelineOutcome.noDoc)) :=
  ⟨Or.inl rfl, invalid_frame_handling 0 5 0 PipelineOutcome.noDoc PipelineOutcome.noDoc
    (Or.inl rfl)⟩

/-! ## Helper lemmas: downscaler arithmetic -/

/-- Scaling a dimension `x ≤ M` by `min(1, c/M)` never exceeds `c`. -/
theorem mul_min_one_div_le (x M c : ℚ) (hx : 0 ≤ x) (hxM : x ≤ M) (hM : 0 < M)
    (hc : 0 ≤ c) : x * min 1 (c / M) ≤ c := by
  rcases le_total 1 (c / M) with h | h
  · rw [min_eq_left h]
    have hMc : M ≤ c := by rwa [le_div_iff hM, one_mul] at h
    linarith
  · rw [min_eq_right h]
    calc x * (c / M) ≤ M * (c / M) :=
          mul_le_mul_of_nonneg_right hxM (div_nonneg hc hM.le)
      _ = c := by field_simp

/-- `Math.round` (round half up) is bounded by any integer bound on its
argument. -/
theorem round_le_int {x : ℚ} {n : ℤ} (h : x ≤ (n : ℚ)) : round x ≤ n := by
  rw [round_eq]
  have h2 : x + 1 / 2 ≤ (n : ℚ) + 1 / 2 := by linarith
  have h3 := Int.floor_mono h2
  rwa [show ⌊(n : ℚ) + 1 / 2⌋ = n by
    rw [Int.floor_eq_iff] <;> constructor <;> linarith] at h3

/-! ## Claim theorems: downscaler -/

/-- C5 (counterexample): the 320px worker variant divides the target by the
frame width, not by the longer edge.  On a 320x640 portrait frame its scale
is 1, not the `min(1, 320/640) = 1/2` the claim prescribes, and the
downscaled frame's long edge is 640, exceeding the 320px target. -/
theorem downscale_not_long_edge :
    scale320 320 = 1 ∧ specScale 320 320 640 = 1 / 2 ∧
    (dims320 320 640).2 = 640 ∧ ¬((dims320 320 640).2 ≤ 320) := by
  refine ⟨?_, ?_, ?_, ?_⟩
  · norm_num [scale320]
  · norm_num [specScale, max_def]
  · norm_num [dims320, scale320]
  · norm_num [dims320, scale320]

/-- C5 (amended): the 640px worker variant computes its scale exactly as
`min(1, 640/max(w,h))`, so neither rounded output dimension exceeds 640; the
320px worker variant and the 480px live scheduler compute
`min(1, maxDim/width)` instead, which bounds only the rounded output width
(by 320 and 480 respectively) — a portrait frame's long edge can exceed the
target there. -/
theorem downscale_bounds (w h : Nat) (hw : 0 < w) (hh : 0 < h) :
    (scale640 w h = specScale 640 w h ∧
      (dims640 w h).1 ≤ 640 ∧ (dims640 w h).2 ≤ 640) ∧
    (dims320 w h).1 ≤ 320 ∧ (dimsLive480 w h).1 ≤ 480 := by
  have hwq : (0 : ℚ) < (w : ℚ) := by exact_mod_cast hw
  have hhq : (0 : ℚ) < (h : ℚ) := by exact_mod_cast hh
  have hM : (0 : ℚ) < max (w : ℚ) (h : ℚ) := lt_max_of_lt_left hwq
  refine ⟨⟨?_, ?_, ?_⟩, ?_, ?_⟩
  · norm_num [scale640, specScale]
  · have hb : (w : ℚ) * scale640 w h ≤ 640 := by
      unfold scale640
      exact mul_min_one_div_le _ _ _ hwq.le (le_max_left _ _) hM (by norm_num)
    show round ((w : ℚ) * scale640 w h) ≤ (640 : ℤ)
    apply round_le_int
    push_cast
    exact hb
  · have hb : (h : ℚ) * scale640 w h ≤ 640 := by
      unfold scale640
      exact mul_min_one_div_le _ _ _ hhq.le (le_max_right _ _) hM (by norm_num)
    show round ((h : ℚ) * scale640 w h) ≤ (640 : ℤ)
    apply round_le_int
    push_cast
    exact hb
  · have hb : (w : ℚ) * scale320 w ≤ 320 := by
      unfold scale320
      exact mul_min_one_div_le _ _ _ hwq.le le_rfl hwq (by norm_num)
    show round ((w : ℚ) * scale320 w) ≤ (320 : ℤ)
    apply round_le_int
    push_cast
    exact hb
  · have hb : (w : ℚ) * scaleLive480 w ≤ 480 := by
      unfold scaleLive480
      exact mul_min_one_div_le _ _ _ hwq.le le_rfl hwq (by norm_num)
    show round ((w : ℚ) * scaleLive480 w) ≤ (480 : ℤ)
    apply round_le_int
    push_cast
    exact hb

/-- Witness for the amended C5: a concrete 1000x500 frame. -/
theorem downscale_bounds_witness :
    0 < 1000 ∧ 0 < 500 ∧
    ((scale640 1000 500 = specScale 640 1000 500 ∧
        (dims640 1000 500).1 ≤ 640 ∧ (dims640 1000 500).2 ≤ 640) ∧
      (dims320 1000 500).1 ≤ 320 ∧ (dimsLive480 1000 500).1 ≤ 480) :=
  ⟨by decide, by decide, downscale_bounds 1000 500 (by decide) (by decide)⟩

/-! ## Helper lemmas: edge lengths and angles -/

/-- Unfolding of cyclic vertex access at index 0. -/
@[simp] theorem Quad.vert_zero (q : Quad) : q.vert 0 = q.p0 := rfl

/-- Unfolding of cyclic vertex access at index 1. -/
@[simp] theorem Quad.vert_one (q : Quad) : q.vert 1 = q.p1 := rfl

/-- Unfolding of cyclic vertex access at index 2. -/
@[simp] theorem Quad.vert_two (q : Quad) : q.vert 2 = q.p2 := rfl

/-- Unfolding of cyclic vertex access at index 3. -/
@[simp] theorem Quad.vert_three (q : Quad) : q.vert 3 = q.p3 := rfl

/-- Normalization of `fin_cases`-produced indices to literals. -/
@[simp] theorem fin4_mk_two (h : 2 < 4) : (⟨2, h⟩ : Fin 4) = 2 := rfl

/-- Normalization of `fin_cases`-produced indices to literals. -/
@[simp] theorem fin4_mk_three (h : 3 < 4) : (⟨3, h⟩ : Fin 4) = 3 := rfl

/-- Edge lengths are square roots, hence nonnegative. -/
theorem edgeLen_nonneg (p q : Pt) : 0 ≤ edgeLen p q := Real.sqrt_nonneg _

/-- A unit lower bound on the squared distance gives a unit lower bound on
the distance. -/
theorem one_le_edgeLen_of (p q : Pt)
    (h : 1 ≤ (p.x - q.x) * (p.x - q.x) + (p.y - q.y) * (p.y - q.y)) :
    1 ≤ edgeLen p q := by
  unfold edgeLen
  calc (1 : ℝ) = Real.sqrt 1 := Real.sqrt_one.symm
    _ ≤ _ := Real.sqrt_le_sqrt h

/-- When the two edge vectors at a vertex are perpendicular, the source's
angle formula yields exactly 90 degrees. -/
theorem interiorAngle_of_perp (q : Quad) (i : Fin 4)
    (hdot : ((q.vert i).x - (q.vert (i + 1)).x) * ((q.vert (i + 2)).x - (q.vert (i + 1)).x) +
      ((q.vert i).y - (q.vert (i + 1)).y) * ((q.vert (i + 2)).y - (q.vert (i + 1)).y) = 0) :
    interiorAngle q i = 90 := by
  simp only [interiorAngle]
  rw [hdot, zero_div]
  rw [show min (1 : ℝ) 0 = 0 from by norm_num,
    show max (-1 : ℝ) 0 = 0 from by norm_num, Real.arccos_zero]
  have hpi := Real.pi_ne_zero
  field_simp
  ring

/-- The 10x10 square passes the angle filter: all edges have length 10 and
all four corner angles are right angles. -/
theorem sq10_angles : hasReasonableAngles sq10 := by
  intro i
  fin_cases i <;>
    exact ⟨one_le_edgeLen_of _ _ (by norm_num [sq10, Quad.vert, fin4_mk_two, fin4_mk_three]),
      one_le_edgeLen_of _ _ (by norm_num [sq10, Quad.vert, fin4_mk_two, fin4_mk_three]),
      by rw [interiorAngle_of_perp _ _ (by norm_num [sq10, Quad.vert, fin4_mk_two, fin4_mk_three])]; norm_num,
      by rw [interiorAngle_of_perp _ _ (by norm_num [sq10, Quad.vert, fin4_mk_two, fin4_mk_three])]; norm_num⟩

/-- The 10x10 square is convex: all consecutive-edge cross products are
positive. -/
theorem sq10_convex : isContourConvex sq10 := by
  left
  intro i
  fin_cases i <;> norm_num [crossAt, sq10, Quad.vert, fin4_mk_two, fin4_mk_three]

/-! ## Claim theorems: rectifier, angle filter, candidate generator -/

/-- C6: for every CornerSet, the worker's rectifier produces exactly the
dimensions `round(max(widthTop, widthBottom)) x round(max(heightLeft,
heightRight))` (Euclidean edge lengths of the corner set), and it fails with
the "too small" signal precisely when either of those dimensions is below
the worker's 50px minimum. -/
theorem rectifier_dims_and_min_size (c : CornerSet) :
    perspectiveCorrect c =
      (if rectifiedWidth c < 50 ∨ rectifiedHeight c < 50 then none
        else some (rectifiedWidth c, rectifiedHeight c)) ∧
    (perspectiveCorrect c = none ↔
      rectifiedWidth c < 50 ∨ rectifiedHeight c < 50) := by
  constructor
  · rfl
  · simp only [perspectiveCorrect, rectifiedWidth, rectifiedHeight]
    split_ifs with hc
    · simp [hc]
    · simp [hc]

/-- C10: any quad that passes the angle filter has all four adjacent-vertex
distances at least 1 pixel, so each iteration's cosine denominator
`mag1 * mag2` is nonzero.  Contrapositively, the filter returns false for
any quad with two adjacent vertices less than 1 pixel apart, and since the
generator only accepts quads passing the filter, every accepted candidate
has all four edge lengths at least 1. -/
theorem angle_filter_min_edge (q : Quad) (h : hasReasonableAngles q) :
    (∀ i : Fin 4, 1 ≤ edgeLen (q.vert i) (q.vert (i + 1))) ∧
    (∀ i : Fin 4, edgeLen (q.vert i) (q.vert (i + 1)) *
      edgeLen (q.vert (i + 2)) (q.vert (i + 1)) ≠ 0) := by
  refine ⟨fun i => (h i).1, fun i => ?_⟩
  have h1 := (h i).1
  have h2 := (h i).2.1
  have hpos : (0 : ℝ) < edgeLen (q.vert i) (q.vert (i + 1)) *
      edgeLen (q.vert (i + 2)) (q.vert (i + 1)) := by nlinarith
  exact ne_of_gt hpos

/-- Witness for C10: the 10x10 square passes the filter and indeed has all
edges of length at least 1. -/
theorem angle_filter_min_edge_witness :
    hasReasonableAngles sq10 ∧
    ((∀ i : Fin 4, 1 ≤ edgeLen (sq10.vert i) (sq10.vert (i + 1))) ∧
      (∀ i : Fin 4, edgeLen (sq10.vert i) (sq10.vert (i + 1)) *
        edgeLen (sq10.vert (i + 2)) (sq10.vert (i + 1)) ≠ 0)) :=
  ⟨sq10_angles, angle_filter_min_edge sq10 sq10_angles⟩

/-- C4 (counterexample): the 320px single-strategy pipeline variant accepts
any 4-vertex approximation on area grounds alone.  The non-convex dart
quad, arising from a contour of area 4 in a 6x6 working frame (minArea =
6*6*0.1 = 3.6, bestArea = 0), is accepted there although it is not convex —
so not every accepted candidate of every pipeline variant is convex with
in-range angles. -/
theorem loose_variant_accepts_nonconvex :
    accepted320 dart (contourArea dart) (6 * 6 * 0.1) 0 ∧
    ¬ isContourConvex dart := by
  constructor
  · constructor
    · unfold contourArea dart
      norm_num
    · unfold contourArea dart
      norm_num
  · intro hcv
    rcases hcv with hpos | hneg
    · have h1 := hpos 1
      norm_num [crossAt, dart, Quad.vert, fin4_mk_two, fin4_mk_three] at h1
    · have h0 := hneg 0
      norm_num [crossAt, dart, Quad.vert, fin4_mk_two, fin4_mk_three] at h0

/-- C4 (amended): every candidate accepted by the multi-strategy generator's
filter (`collectQuads` in the scoring worker, and `findBestQuad` in the
current worker, which both require convexity and the angle filter) has
exactly 4 vertices, is convex, and has every interior angle within
[45, 135] degrees; the 320px single-strategy variants check only the vertex
count, so the guarantee does not extend to them. -/
theorem candidate_filter_guarantees (q : Quad) (h : collectQuadsAccepts q) :
    q.toList.length = 4 ∧ isContourConvex q ∧
    ∀ i : Fin 4, 45 ≤ interiorAngle q i ∧ interiorAngle q i ≤ 135 :=
  ⟨rfl, h.1, fun i => ⟨(h.2 i).2.2.1, (h.2 i).2.2.2⟩⟩

/-- Witness for the amended C4: the 10x10 square is accepted by the filter
and satisfies all three properties. -/
theorem candidate_filter_guarantees_witness :
    collectQuadsAccepts sq10 ∧
    (sq10.toList.length = 4 ∧ isContourConvex sq10 ∧
      ∀ i : Fin 4, 45 ≤ interiorAngle sq10 i ∧ interiorAngle sq10 i ≤ 135) :=
  ⟨⟨sq10_convex, sq10_angles⟩,
    candidate_filter_guarantees sq10 ⟨sq10_convex, sq10_angles⟩⟩

/-! ## Helper lemmas: score term bounds -/

/-- A term of the shape `max(0, 1 - A/B) * c` with nonnegative `A`, `B`, `c`
lies in `[0, c]`.  This is the shape of the center-proximity and
paper-aspect terms. -/
theorem clamped_band_bounds (A B c : ℝ) (hA : 0 ≤ A) (hB : 0 ≤ B)
    (hc : 0 ≤ c) : 0 ≤ max 0 (1 - A / B) * c ∧ max 0 (1 - A / B) * c ≤ c := by
  have hd : 0 ≤ A / B := div_nonneg hA hB
  have hmax : max (0 : ℝ) (1 - A / B) ≤ 1 := max_le (by norm_num) (by linarith)
  constructor
  · exact mul_nonneg (le_max_left _ _) hc
  · have hmul := mul_le_mul_of_nonneg_right hmax hc
    simpa using hmul

/-- The unclamped linear-falloff term `(1 - t/c) * m` lies in `[0, m]` when
`t/c` lies in `[0, 1]` and `m` is nonnegative. -/
theorem falloff_bounds (t c m : ℝ) (h0 : 0 ≤ t / c) (h1 : t / c ≤ 1)
    (hm : 0 ≤ m) : 0 ≤ (1 - t / c) * m ∧ (1 - t / c) * m ≤ m := by
  constructor
  · exact mul_nonneg (by linarith) hm
  · have hmul := mul_le_mul_of_nonneg_right (show 1 - t / c ≤ 1 by linarith) hm
    simpa using hmul

/-- The center-proximity term lies in [0, 40] for any quad and any image
center. -/
theorem centerScore_bounds (q : Quad) (imgCx imgCy : ℝ) :
    0 ≤ centerScore q imgCx imgCy ∧ centerScore q imgCx imgCy ≤ 40 := by
  simp only [centerScore]
  exact clamped_band_bounds _ _ _ (Real.sqrt_nonneg _) (Real.sqrt_nonneg _)
    (by norm_num)

/-- The size-sweet-spot term lies in [0, 35] for any nonnegative candidate
area and positive image area. -/
theorem sizeScore_bounds (area imgArea : ℝ) (ha : 0 ≤ area)
    (hA : 0 < imgArea) : 0 ≤ sizeScore area imgArea ∧ sizeScore area imgArea ≤ 35 := by
  simp only [sizeScore]
  have hr : 0 ≤ area / imgArea := div_nonneg ha hA.le
  split_ifs with h1 h2
  · obtain ⟨hlo, hhi⟩ := h1
    have habs : |area / imgArea - 0.35| ≤ 0.35 :=
      abs_le.mpr ⟨by linarith, by linarith⟩
    have habs0 : 0 ≤ |area / imgArea - 0.35| := abs_nonneg _
    have hb := falloff_bounds |area / imgArea - 0.35| 0.35 35
      (div_nonneg habs0 (by norm_num))
      ((div_le_one (by norm_num)).mpr habs) (by norm_num)
    exact hb
  · have hgap : 0 ≤ (area / imgArea - 0.70) / 0.30 :=
      div_nonneg (by linarith) (by norm_num)
    have hle := clamped_band_bounds (area / imgArea - 0.70) 0.30 10
      (by linarith) (by norm_num) (by norm_num)
    constructor
    · exact hle.1
    · linarith [hle.2]
  · have hlt : area / imgArea < 0.10 := by
      by_contra hge
      push_neg at hge
      exact h1 ⟨hge, by linarith [not_lt.mp h2]⟩
    have hdiv : area / imgArea / 0.10 ≤ 1 :=
      (div_le_one (by norm_num)).mpr (by linarith)
    constructor
    · exact mul_nonneg (div_nonneg hr (by norm_num)) (by norm_num)
    · have hmul := mul_le_mul_of_nonneg_right hdiv (show (0:ℝ) ≤ 15 by norm_num)
      simp only [one_mul] at hmul
      linarith

/-- The paper-aspect term lies in [0, 25] for any quad. -/
theorem aspectScore_bounds (q : Quad) :
    0 ≤ aspectScore q ∧ aspectScore q ≤ 25 := by
  simp only [aspectScore]
  split_ifs with h
  · exact clamped_band_bounds _ _ _
      (le_min (le_min (le_min (by norm_num) (abs_nonneg _)) (abs_nonneg _))
        (abs_nonneg _)) (by norm_num) (by norm_num)
  · norm_num

/-! ## Claim theorem: score boundedness -/

/-- C3: for any candidate quad, any nonnegative contour area and any
positive image dimensions (center `(imgCx, imgCy)` and area `imgArea` as the
generator passes them), the total score — the sum of the center-proximity
(0-40), size-sweet-spot (0-35) and paper-aspect (0-25) terms — lies in
[0, 100]. -/
theorem score_bounded (q : Quad) (area imgCx imgCy imgArea : ℝ)
    (ha : 0 ≤ area) (hcx : 0 < imgCx) (hcy : 0 < imgCy) (hA : 0 < imgArea) :
    0 ≤ scoreCandidate q area imgCx imgCy imgArea ∧
    scoreCandidate q area imgCx imgCy imgArea ≤ 100 := by
  have h1 := centerScore_bounds q imgCx imgCy
  have h2 := sizeScore_bounds area imgArea ha hA
  have h3 := aspectScore_bounds q
  unfold scoreCandidate
  constructor
  · linarith [h1.1, h2.1, h3.1]
  · linarith [h1.2, h2.2, h3.2]

/-- Witness for C3: the 10x10 square scored against a 100x100 frame. -/
theorem score_bounded_witness :
    ((0 : ℝ) ≤ 0 ∧ (0 : ℝ) < 50 ∧ (0 : ℝ) < 50 ∧ (0 : ℝ) < 10000) ∧
    (0 ≤ scoreCandidate sq10 0 50 50 10000 ∧
      scoreCandidate sq10 0 50 50 10000 ≤ 100) :=
  ⟨⟨le_refl 0, by norm_num, by norm_num, by norm_num⟩,
    score_bounded sq10 0 50 50 10000 (le_refl 0) (by norm_num) (by norm_num)
      (by norm_num)⟩

/-! ## Helper lemmas: ends of the stable 4-element sort -/

/-- When the first element is the strict key-minimum and the third the
strict key-maximum of four points, the stable sort starts with the first and
ends with the third. -/
theorem sortBy_ends_min0_max2 (key : Pt → ℝ) (a b c d : Pt)
    (hab : key a < key b) (hac : key a < key c) (had : key a < key d)
    (hbc : key b < key c) (hdc : key d < key c) :
    (sortBy key [a, b, c, d]).getD 0 ⟨0, 0⟩ = a ∧
    (sortBy key [a, b, c, d]).getD 3 ⟨0, 0⟩ = c := by
  have e1 : insertBy key c [d] = [d, c] := by
    simp only [insertBy]
    rw [if_neg (not_le.mpr hdc)]
  rcases le_or_lt (key b) (key d) with hbd | hdb
  · have e2 : insertBy key b [d, c] = [b, d, c] := by
      simp only [insertBy]
      rw [if_pos hbd]
    have e3 : insertBy key a [b, d, c] = [a, b, d, c] := by
      simp only [insertBy]
      rw [if_pos hab.le]
    have hs : sortBy key [a, b, c, d] = [a, b, d, c] := by
      simp only [sortBy]
      rw [show insertBy key d [] = [d] from rfl, e1, e2, e3]
    rw [hs]
    exact ⟨rfl, rfl⟩
  · have e2 : insertBy key b [d, c] = [d, b, c] := by
      simp only [insertBy]
      rw [if_neg (not_le.mpr hdb), if_pos hbc.le]
    have e3 : insertBy key a [d, b, c] = [a, d, b, c] := by
      simp only [insertBy]
      rw [if_pos had.le]
    have hs : sortBy key [a, b, c, d] = [a, d, b, c] := by
      simp only [sortBy]
      rw [show insertBy key d [] = [d] from rfl, e1, e2, e3]
    rw [hs]
    exact ⟨rfl, rfl⟩

/-- When the fourth element is the strict key-minimum and the second the
strict key-maximum of four points, the stable sort starts with the fourth
and ends with the second. -/
theorem sortBy_ends_min3_max1 (key : Pt → ℝ) (a b c d : Pt)
    (hda : key d < key a) (hdb : key d < key b) (hdc : key d < key c)
    (hab : key a < key b) (hcb : key c < key b) :
    (sortBy key [a, b, c, d]).getD 0 ⟨0, 0⟩ = d ∧
    (sortBy key [a, b, c, d]).getD 3 ⟨0, 0⟩ = b := by
  have e1 : insertBy key c [d] = [d, c] := by
    simp only [insertBy]
    rw [if_neg (not_le.mpr hdc)]
  have e2 : insertBy key b [d, c] = [d, c, b] := by
    simp only [insertBy]
    rw [if_neg (not_le.mpr hdb), if_neg (not_le.mpr hcb)]
  rcases le_or_lt (key a) (key c) with hac | hca
  · have e3 : insertBy key a [d, c, b] = [d, a, c, b] := by
      simp only [insertBy]
      rw [if_neg (not_le.mpr hda), if_pos hac]
    have hs : sortBy key [a, b, c, d] = [d, a, c, b] := by
      simp only [sortBy]
      rw [show insertBy key d [] = [d] from rfl, e1, e2, e3]
    rw [hs]
    exact ⟨rfl, rfl⟩
  · have e3 : insertBy key a [d, c, b] = [d, c, a, b] := by
      simp only [insertBy]
      rw [if_neg (not_le.mpr hda), if_neg (not_le.mpr hca), if_pos hab.le]
    have hs : sortBy key [a, b, c, d] = [d, c, a, b] := by
      simp only [sortBy]
      rw [show insertBy key d [] = [d] from rfl, e1, e2, e3]
    rw [hs]
    exact ⟨rfl, rfl⟩

/-! ## Claim theorems: corner canonicalization -/

/-- C7 (counterexample): the canonicalizer is not idempotent on a CornerSet
with tied keys.  The record {tl=(0,0), tr=(3,0), br=(3,1), bl=(0,4)} is
itself an output of `orderCorners` (from the input order [(0,0), (3,0),
(0,4), (3,1)]) and satisfies the spec's descriptive canonical conditions,
but re-canonicalizing its four points relabels `bottomRight` to (0,4)
because (3,1) and (0,4) tie on the sum key and the stable sort then picks
the later-listed point as the maximum. -/
theorem canonicalize_not_idempotent :
    orderCorners [⟨0, 0⟩, ⟨3, 0⟩, ⟨0, 4⟩, ⟨3, 1⟩] =
      CornerSet.mk ⟨0, 0⟩ ⟨3, 0⟩ ⟨3, 1⟩ ⟨0, 4⟩ ∧
    isCanonicalSpec (CornerSet.mk ⟨0, 0⟩ ⟨3, 0⟩ ⟨3, 1⟩ ⟨0, 4⟩) ∧
    orderCorners [⟨0, 0⟩, ⟨3, 0⟩, ⟨3, 1⟩, ⟨0, 4⟩] ≠
      CornerSet.mk ⟨0, 0⟩ ⟨3, 0⟩ ⟨3, 1⟩ ⟨0, 4⟩ := by
  refine ⟨?_, ?_, ?_⟩
  · norm_num [orderCorners, sortBy, insertBy, sumKey, diffKey, List.getD]
  · norm_num [isCanonicalSpec, sumKey, diffKey]
  · norm_num [orderCorners, sortBy, insertBy, sumKey, diffKey, List.getD,
      CornerSet.mk.injEq, Pt.mk.injEq]

/-- C7 (amended): canonicalizing the four points of an already-canonical
CornerSet returns the same labeling provided the four keys identify the
corners strictly — topLeft strictly minimal and bottomRight strictly maximal
in `x+y`, bottomLeft strictly minimal and topRight strictly maximal in
`x-y`.  (With tied keys the stable sort can relabel corners, per the
counterexample.) -/
theorem canonicalize_idempotent_strict (tl tr br bl : Pt)
    (h1 : sumKey tl < sumKey tr) (h2 : sumKey tl < sumKey br)
    (h3 : sumKey tl < sumKey bl) (h4 : sumKey tr < sumKey br)
    (h5 : sumKey bl < sumKey br)
    (h6 : diffKey bl < diffKey tl) (h7 : diffKey bl < diffKey tr)
    (h8 : diffKey bl < diffKey br) (h9 : diffKey tl < diffKey tr)
    (h10 : diffKey br < diffKey tr) :
    orderCorners [tl, tr, br, bl] = CornerSet.mk tl tr br bl := by
  obtain ⟨s0, s3⟩ := sortBy_ends_min0_max2 sumKey tl tr br bl h1 h2 h3 h4 h5
  obtain ⟨d0, d3⟩ := sortBy_ends_min3_max1 diffKey tl tr br bl h6 h7 h8 h9 h10
  simp only [orderCorners]
  rw [s0, s3, d0, d3]

/-- Witness for the amended C7: a concrete CornerSet with strict keys is a
fixed point of the canonicalizer. -/
theorem canonicalize_idempotent_strict_witness :
    (sumKey ⟨0, 0⟩ < sumKey ⟨10, 1⟩ ∧ sumKey ⟨0, 0⟩ < sumKey ⟨11, 12⟩ ∧
      sumKey ⟨0, 0⟩ < sumKey ⟨1, 9⟩ ∧ sumKey ⟨10, 1⟩ < sumKey ⟨11, 12⟩ ∧
      sumKey ⟨1, 9⟩ < sumKey ⟨11, 12⟩ ∧ diffKey ⟨1, 9⟩ < diffKey ⟨0, 0⟩ ∧
      diffKey ⟨1, 9⟩ < diffKey ⟨10, 1⟩ ∧ diffKey ⟨1, 9⟩ < diffKey ⟨11, 12⟩ ∧
      diffKey ⟨0, 0⟩ < diffKey ⟨10, 1⟩ ∧ diffKey ⟨11, 12⟩ < diffKey ⟨10, 1⟩) ∧
    orderCorners [⟨0, 0⟩, ⟨10, 1⟩, ⟨11, 12⟩, ⟨1, 9⟩] =
      CornerSet.mk ⟨0, 0⟩ ⟨10, 1⟩ ⟨11, 12⟩ ⟨1, 9⟩ :=
  ⟨⟨by norm_num [sumKey], by norm_num [sumKey], by norm_num [sumKey],
    by norm_num [sumKey], by norm_num [sumKey], by norm_num [diffKey],
    by norm_num [diffKey], by norm_num [diffKey], by norm_num [diffKey],
    by norm_num [diffKey]⟩,
    canonicalize_idempotent_strict ⟨0, 0⟩ ⟨10, 1⟩ ⟨11, 12⟩ ⟨1, 9⟩
      (by norm_num [sumKey]) (by norm_num [sumKey]) (by norm_num [sumKey])
      (by norm_num [sumKey]) (by norm_num [sumKey]) (by norm_num [diffKey])
      (by norm_num [diffKey]) (by norm_num [diffKey]) (by norm_num [diffKey])
      (by norm_num [diffKey])⟩
